import Mathlib

/-!
Verification of the steam-dataset-2025 acquisition-and-load core.

This file gives a shallow embedding of the two programs the claims are about:

* `src/work-logs/06-full-data-set-import/collect_full_dataset.py` — the
  resumable crawler (`StateManager`, `SteamAPIClient`, `DataCollector`);
* `src/scripts/06-full-dataset-import/import-master-data.py` — the streaming
  two-phase relational loader (`PostgresImporter`).

JSON values are modelled by `JsonVal`; Python truthiness by `truthy`;
Python `int(...)` parsing of state-file lines by `pyInt`; the decimal
rendering used by `f"{appid}\n"` by `natToDec`.  Stateful code is modelled
by explicit state passing; the HTTP side by a response oracle; `random.random()`
draws by an explicit sequence of rationals.
-/

/-! ## JSON values (the Python object domain of `json.loads`) -/

/-- A parsed JSON document.  `null` plays the role of Python `None`;
numbers are modelled as integers (the fields the claims touch —
`steam_appid`, lookup ids — are integral). -/
inductive JsonVal where
  | null
  | bool (b : Bool)
  | num (n : Int)
  | str (s : String)
  | arr (elems : List JsonVal)
  | obj (fields : List (String × JsonVal))

mutual
def beqVal : JsonVal → JsonVal → Bool
  | .null, .null => true
  | .bool a, .bool b => a == b
  | .num a, .num b => a == b
  | .str a, .str b => a == b
  | .arr a, .arr b => beqValList a b
  | .obj a, .obj b => beqFieldList a b
  | _, _ => false
def beqValList : List JsonVal → List JsonVal → Bool
  | [], [] => true
  | a :: as, b :: bs => beqVal a b && beqValList as bs
  | _, _ => false
def beqFieldList : List (String × JsonVal) → List (String × JsonVal) → Bool
  | [], [] => true
  | (k1, v1) :: as, (k2, v2) :: bs => k1 == k2 && beqVal v1 v2 && beqFieldList as bs
  | _, _ => false
end

mutual
theorem beqVal_refl : (v : JsonVal) → beqVal v v = true
  | .null => rfl
  | .bool b => by simp [beqVal]
  | .num n => by simp [beqVal]
  | .str s => by simp [beqVal]
  | .arr l => by simp [beqVal, beqValList_refl l]
  | .obj l => by simp [beqVal, beqFieldList_refl l]
theorem beqValList_refl : (l : List JsonVal) → beqValList l l = true
  | [] => rfl
  | a :: as => by simp [beqValList, beqVal_refl a, beqValList_refl as]
theorem beqFieldList_refl : (l : List (String × JsonVal)) → beqFieldList l l = true
  | [] => rfl
  | (k, v) :: as => by simp [beqFieldList, beqVal_refl v, beqFieldList_refl as]
end

mutual
theorem beqVal_sound : (a b : JsonVal) → beqVal a b = true → a = b
  | .null, .null, _ => rfl
  | .bool x, .bool y, h => by simp [beqVal] at h; simp [h]
  | .num x, .num y, h => by simp [beqVal] at h; simp [h]
  | .str x, .str y, h => by simp [beqVal] at h; simp [h]
  | .arr x, .arr y, h => by
      simp only [beqVal] at h
      exact congrArg JsonVal.arr (beqValList_sound x y h)
  | .obj x, .obj y, h => by
      simp only [beqVal] at h
      exact congrArg JsonVal.obj (beqFieldList_sound x y h)
  | .null, .bool _, h => by simp [beqVal] at h
  | .null, .num _, h => by simp [beqVal] at h
  | .null, .str _, h => by simp [beqVal] at h
  | .null, .arr _, h => by simp [beqVal] at h
  | .null, .obj _, h => by simp [beqVal] at h
  | .bool _, .null, h => by simp [beqVal] at h
  | .bool _, .num _, h => by simp [beqVal] at h
  | .bool _, .str _, h => by simp [beqVal] at h
  | .bool _, .arr _, h => by simp [beqVal] at h
  | .bool _, .obj _, h => by simp [beqVal] at h
  | .num _, .null, h => by simp [beqVal] at h
  | .num _, .bool _, h => by simp [beqVal] at h
  | .num _, .str _, h => by simp [beqVal] at h
  | .num _, .arr _, h => by simp [beqVal] at h
  | .num _, .obj _, h => by simp [beqVal] at h
  | .str _, .null, h => by simp [beqVal] at h
  | .str _, .bool _, h => by simp [beqVal] at h
  | .str _, .num _, h => by simp [beqVal] at h
  | .str _, .arr _, h => by simp [beqVal] at h
  | .str _, .obj _, h => by simp [beqVal] at h
  | .arr _, .null, h => by simp [beqVal] at h
  | .arr _, .bool _, h => by simp [beqVal] at h
  | .arr _, .num _, h => by simp [beqVal] at h
  | .arr _, .str _, h => by simp [beqVal] at h
  | .arr _, .obj _, h => by simp [beqVal] at h
  | .obj _, .null, h => by simp [beqVal] at h
  | .obj _, .bool _, h => by simp [beqVal] at h
  | .obj _, .num _, h => by simp [beqVal] at h
  | .obj _, .str _, h => by simp [beqVal] at h
  | .obj _, .arr _, h => by simp [beqVal] at h
theorem beqValList_sound : (a b : List JsonVal) → beqValList a b = true → a = b
  | [], [], _ => rfl
  | x :: xs, y :: ys, h => by
      simp only [beqValList, Bool.and_eq_true] at h
      rw [beqVal_sound x y h.1, beqValList_sound xs ys h.2]
  | [], _ :: _, h => by simp [beqValList] at h
  | _ :: _, [], h => by simp [beqValList] at h
theorem beqFieldList_sound : (a b : List (String × JsonVal)) → beqFieldList a b = true → a = b
  | [], [], _ => rfl
  | (k1, v1) :: xs, (k2, v2) :: ys, h => by
      simp only [beqFieldList, Bool.and_eq_true] at h
      have hk : k1 = k2 := by simpa using h.1.1
      rw [hk, beqVal_sound v1 v2 h.1.2, beqFieldList_sound xs ys h.2]
  | [], _ :: _, h => by simp [beqFieldList] at h
  | _ :: _, [], h => by simp [beqFieldList] at h
end

instance : DecidableEq JsonVal := fun a b =>
  decidable_of_iff (beqVal a b = true)
    ⟨beqVal_sound a b, fun h => h ▸ beqVal_refl a⟩

/-- Python truthiness of a JSON-derived value (`if x:`). -/
def truthy : JsonVal → Bool
  | .null => false
  | .bool b => b
  | .num n => n ≠ 0
  | .str s => s ≠ ""
  | .arr l => ¬ l.isEmpty
  | .obj l => ¬ l.isEmpty

/-- `d[k]` lookup on a parsed JSON object; `json.loads` keeps the last of
duplicate keys, so the rightmost binding wins.  On a non-dict this models
the miss (`None`) branch of the callers that use `.get`. -/
def pyGet : JsonVal → String → Option JsonVal
  | .obj fields, k => (fields.reverse.find? (fun f => f.1 = k)).map (·.2)
  | _, _ => none

/-- Python `d.get(k, default)`: a key present with JSON `null` yields `null`
(Python `None`), not the default. -/
def pyGetD (v : JsonVal) (k : String) (d : JsonVal) : JsonVal := (pyGet v k).getD d

/-- Python `k in d`. -/
def hasKey (v : JsonVal) (k : String) : Bool := (pyGet v k).isSome

/-- Collapse JSON `null` to Python `None` at an `Optional` boundary. -/
def jsonToPy : JsonVal → Option JsonVal
  | .null => none
  | v => some v

/-- `for x in data.get(key, [])`: iterating a parsed JSON array. -/
def pyListItems : JsonVal → List JsonVal
  | .arr xs => xs
  | _ => []

def isObjVal : JsonVal → Bool
  | .obj _ => true
  | _ => false

/-! ## Python `int(line.strip())` and `f"{appid}"` -/

def isAsciiDigit (c : Char) : Bool := '0' ≤ c && c ≤ '9'

def digitVal (c : Char) : Nat := c.toNat - 48

/-- The ASCII whitespace stripped by `str.strip()`. -/
def isPyWs (c : Char) : Bool :=
  c = ' ' || c = '\t' || c = '\n' || c = '\r' || c = '\x0b' || c = '\x0c'

def pyStrip (cs : List Char) : List Char :=
  ((cs.dropWhile isPyWs).reverse.dropWhile isPyWs).reverse

mutual
/-- Digits of a Python integer literal, underscores allowed singly between
digits (`int("1_0") = 10`, while `"_1"`, `"1_"`, `"1__0"` raise). -/
def pyDigitsAux : Nat → List Char → Option Nat
  | acc, [] => some acc
  | acc, c :: cs =>
    if isAsciiDigit c then pyDigitsAux (10 * acc + digitVal c) cs
    else if c = '_' then pyDigitsUnd acc cs
    else none
def pyDigitsUnd : Nat → List Char → Option Nat
  | _, [] => none
  | acc, c :: cs => if isAsciiDigit c then pyDigitsAux (10 * acc + digitVal c) cs else none
end

def pyDigits : List Char → Option Nat
  | [] => none
  | c :: cs => if isAsciiDigit c then pyDigitsAux (digitVal c) cs else none

/-- Python `int(s)` on an ASCII line: strip whitespace, optional sign,
then a digit run; `none` models the `ValueError` branch. -/
def pyInt (s : String) : Option Int :=
  match pyStrip s.data with
  | '+' :: rest => (pyDigits rest).map Int.ofNat
  | '-' :: rest => (pyDigits rest).map (fun n => -(n : Int))
  | cs => (pyDigits cs).map Int.ofNat

def digitChar : Nat → Char
  | 0 => '0' | 1 => '1' | 2 => '2' | 3 => '3' | 4 => '4'
  | 5 => '5' | 6 => '6' | 7 => '7' | 8 => '8' | _ => '9'

def natToDecAux : Nat → Nat → List Char → List Char
  | 0, _, acc => acc
  | fuel + 1, n, acc =>
    if n < 10 then digitChar n :: acc
    else natToDecAux fuel (n / 10) (digitChar (n % 10) :: acc)

def natToDecList (n : Nat) : List Char := natToDecAux (n + 1) n []

/-- The decimal rendering `f"{appid}"` / `str(appid)` of a Steam appid. -/
def natToDec (n : Nat) : String := ⟨natToDecList n⟩

/-! ### Decimal round-trip: a written state line parses back to its id -/

def decVal (cs : List Char) : Nat := cs.foldl (fun a c => 10 * a + digitVal c) 0

theorem digitChar_isDigit {d : Nat} (h : d < 10) : isAsciiDigit (digitChar d) = true := by
  interval_cases d <;> decide

theorem digitVal_digitChar {d : Nat} (h : d < 10) : digitVal (digitChar d) = d := by
  interval_cases d <;> decide

theorem natToDecAux_spec (n : Nat) : ∀ (fuel : Nat) (acc : List Char), n < fuel →
    natToDecAux fuel n acc = natToDecList n ++ acc := by
  induction n using Nat.strong_induction_on with
  | _ n ih =>
    intro fuel acc hfuel
    cases fuel with
    | zero => omega
    | succ g =>
      rw [natToDecAux]
      by_cases h10 : n < 10
      · rw [if_pos h10]
        rw [natToDecList, natToDecAux, if_pos h10]
        rfl
      · rw [if_neg h10]
        have hd : n / 10 < n := Nat.div_lt_self (by omega) (by omega)
        rw [ih (n / 10) hd g _ (by omega)]
        have hrhs : natToDecList n = natToDecList (n / 10) ++ [digitChar (n % 10)] := by
          rw [natToDecList, natToDecAux, if_neg h10, ih (n / 10) hd n _ (by omega)]
        rw [hrhs, List.append_assoc]
        rfl

theorem natToDecList_unfold (n : Nat) (h : ¬ n < 10) :
    natToDecList n = natToDecList (n / 10) ++ [digitChar (n % 10)] := by
  have hd : n / 10 < n := Nat.div_lt_self (by omega) (by omega)
  rw [natToDecList, natToDecAux, if_neg h, natToDecAux_spec (n / 10) n _ (by omega)]

theorem natToDecList_small (n : Nat) (h : n < 10) : natToDecList n = [digitChar n] := by
  rw [natToDecList, natToDecAux, if_pos h]

theorem natToDecList_all_digits (n : Nat) : ∀ c ∈ natToDecList n, isAsciiDigit c = true := by
  induction n using Nat.strong_induction_on with
  | _ n ih =>
    by_cases h10 : n < 10
    · rw [natToDecList_small n h10]
      intro c hc; simp at hc; subst hc; exact digitChar_isDigit h10
    · rw [natToDecList_unfold n h10]
      intro c hc
      simp only [List.mem_append, List.mem_singleton] at hc
      rcases hc with hc | hc
      · exact ih (n / 10) (Nat.div_lt_self (by omega) (by omega)) c hc
      · subst hc; exact digitChar_isDigit (Nat.mod_lt _ (by omega))

theorem natToDecList_ne_nil (n : Nat) : natToDecList n ≠ [] := by
  by_cases h10 : n < 10
  · rw [natToDecList_small n h10]; simp
  · rw [natToDecList_unfold n h10]; simp

theorem pyDigitsAux_digits (cs : List Char) (h : ∀ c ∈ cs, isAsciiDigit c = true) (acc : Nat) :
    pyDigitsAux acc cs = some (cs.foldl (fun a c => 10 * a + digitVal c) acc) := by
  induction cs generalizing acc with
  | nil => rw [pyDigitsAux]; rfl
  | cons c cs ih =>
    have hc : isAsciiDigit c = true := h c (by simp)
    rw [pyDigitsAux, if_pos hc, ih (fun c hmem => h c (by simp [hmem]))]
    rfl

theorem pyDigits_digits (cs : List Char) (hne : cs ≠ []) (h : ∀ c ∈ cs, isAsciiDigit c = true) :
    pyDigits cs = some (decVal cs) := by
  cases cs with
  | nil => exact absurd rfl hne
  | cons c cs =>
    have hc : isAsciiDigit c = true := h c (by simp)
    rw [pyDigits, if_pos hc, pyDigitsAux_digits cs (fun c hmem => h c (by simp [hmem]))]
    simp [decVal]

theorem foldl_decVal_append (xs : List Char) (c : Char) (a : Nat) :
    (xs ++ [c]).foldl (fun a c => 10 * a + digitVal c) a
      = 10 * (xs.foldl (fun a c => 10 * a + digitVal c) a) + digitVal c := by
  simp [List.foldl_append]

theorem decVal_natToDecList (n : Nat) : decVal (natToDecList n) = n := by
  induction n using Nat.strong_induction_on with
  | _ n ih =>
    by_cases h10 : n < 10
    · rw [natToDecList_small n h10]
      simp [decVal, digitVal_digitChar h10]
    · rw [natToDecList_unfold n h10]
      unfold decVal
      rw [foldl_decVal_append]
      have : (natToDecList (n / 10)).foldl (fun a c => 10 * a + digitVal c) 0
          = n / 10 := ih (n / 10) (Nat.div_lt_self (by omega) (by omega))
      rw [this, digitVal_digitChar (Nat.mod_lt _ (by omega))]
      omega

theorem digit_not_ws {c : Char} (h : isAsciiDigit c = true) : isPyWs c = false := by
  unfold isAsciiDigit at h
  simp only [Bool.and_eq_true, decide_eq_true_eq] at h
  unfold isPyWs
  simp only [Bool.or_eq_false_iff, decide_eq_false_iff_not]
  refine ⟨⟨⟨⟨⟨?_, ?_⟩, ?_⟩, ?_⟩, ?_⟩, ?_⟩ <;>
    · intro heq; subst heq; exact absurd h (by decide)

theorem dropWhile_eq_self_of (p : Char → Bool) (l : List Char) (h : ∀ c ∈ l, p c = false) :
    l.dropWhile p = l := by
  cases l with
  | nil => rfl
  | cons c cs => simp [List.dropWhile_cons, h c (by simp)]

theorem pyStrip_digits (cs : List Char) (h : ∀ c ∈ cs, isAsciiDigit c = true) : pyStrip cs = cs := by
  unfold pyStrip
  rw [dropWhile_eq_self_of _ _ (fun c hc => digit_not_ws (h c hc)),
      dropWhile_eq_self_of _ _ (fun c hc => digit_not_ws (h c (List.mem_reverse.mp hc))),
      List.reverse_reverse]

theorem pyInt_natToDec (n : Nat) : pyInt (natToDec n) = some (n : Int) := by
  unfold pyInt natToDec
  have hstrip : pyStrip (natToDecList n) = natToDecList n :=
    pyStrip_digits _ (natToDecList_all_digits n)
  have hdig := pyDigits_digits (natToDecList n) (natToDecList_ne_nil n) (natToDecList_all_digits n)
  simp only [String.data]
  rw [hstrip]
  cases hcs : natToDecList n with
  | nil => exact absurd hcs (natToDecList_ne_nil n)
  | cons c rest =>
    have hc : isAsciiDigit c = true := by
      have := natToDecList_all_digits n
      rw [hcs] at this; exact this c (by simp)
    have hplus : c ≠ '+' := fun heq => absurd hc (by subst heq; decide)
    have hminus : c ≠ '-' := fun heq => absurd hc (by subst heq; decide)
    have hdig' : pyDigits (c :: rest) = some (decVal (c :: rest)) := by rw [← hcs]; exact hdig
    have hval : decVal (c :: rest) = n := by rw [← hcs, decVal_natToDecList]
    split
    · next r heq => exact absurd ((List.cons.injEq _ _ _ _).mp heq).1 hplus
    · next r heq => exact absurd ((List.cons.injEq _ _ _ _).mp heq).1 hminus
    · rw [hdig', hval]; rfl

/-! ## The crawler: `collect_full_dataset.py`

`StateManager` holds two newline-delimited id files; `SteamAPIClient`
wraps the appdetails endpoint with bounded retries and exponential
backoff; `DataCollector.run_collection` drives the filtered work list,
buffers successes and flushes size-capped batch artifacts. -/

/-- One HTTP exchange as seen by `SteamAPIClient.get_app_details`:
a 200 with parsed JSON body, a non-200 status code, or a
`requests.RequestException` (network-level error). -/
inductive HttpResponse where
  | ok (payload : JsonVal)
  | status (code : Nat)
  | netError

/-- `API_MAX_RETRIES` default (`int(os.getenv('API_MAX_RETRIES', 3))`). -/
def API_MAX_RETRIES : Nat := 3

/-- `time.sleep((5 ** attempt) + (random.random() * 0.5))`: the backoff
slept after a retryable failure, with `r` the `random.random()` draw. -/
def backoffSleep (attempt : Nat) (r : ℚ) : ℚ := 5 ^ attempt + r * (1 / 2)

/-- What one `get_app_details` call returns, plus the backoff sleeps it
performed (the fixed `API_DELAY_SECONDS` throttle of the outer loop is not
part of the retry backoff and is not recorded). -/
structure FetchResult where
  result : Option JsonVal
  sleeps : List ℚ
deriving DecidableEq

/-- `data.get(str(appid)) if data and str(appid) in data else None` on an
HTTP 200 body: note that the node's `success` flag is *not* consulted;
a key present with JSON `null` comes back as Python `None`. -/
def http200Result (payload : JsonVal) (appid : Nat) : Option JsonVal :=
  if truthy payload && hasKey payload (natToDec appid) then
    (pyGet payload (natToDec appid)).bind jsonToPy
  else none

/-- The `for attempt in range(API_MAX_RETRIES)` body of
`SteamAPIClient.get_app_details`: HTTP 200 and 404/401/403 return
immediately; 429, any other status, and network errors sleep a backoff
and retry; an exhausted budget returns `None`. -/
def fetchLoop (resp : Nat → HttpResponse) (rand : Nat → ℚ) (appid : Nat) :
    Nat → Nat → FetchResult
  | _, 0 => ⟨none, []⟩
  | attempt, remaining + 1 =>
    match resp attempt with
    | .ok payload => ⟨http200Result payload appid, []⟩
    | .status code =>
      if code = 404 ∨ code = 401 ∨ code = 403 then ⟨none, []⟩
      else
        let rest := fetchLoop resp rand appid (attempt + 1) remaining
        ⟨rest.result, backoffSleep attempt (rand attempt) :: rest.sleeps⟩
    | .netError =>
      let rest := fetchLoop resp rand appid (attempt + 1) remaining
      ⟨rest.result, backoffSleep attempt (rand attempt) :: rest.sleeps⟩

/-- `SteamAPIClient.get_app_details(appid)`, with `resp` the per-attempt
response oracle and `rand` the per-attempt `random.random()` draws. -/
def getAppDetails (resp : Nat → HttpResponse) (rand : Nat → ℚ) (appid : Nat) : FetchResult :=
  fetchLoop resp rand appid 0 API_MAX_RETRIES

/-- The two `StateManager` id files, as lists of lines (newlines dropped). -/
structure StateFiles where
  processed : List String
  failed : List String
deriving DecidableEq

/-- `StateManager.load_processed_ids`: union over both files of the lines
whose `int(line.strip())` succeeds; a `ValueError` line is skipped. -/
def loadProcessedIds (processedFile failedFile : List String) : Finset Int :=
  (processedFile ++ failedFile).foldl
    (fun s line =>
      match pyInt line with
      | some n => insert n s
      | none => s) ∅

/-- Outcome of `DataCollector.run_collection`: the flushed batch
artifacts in flush order, the final state files, and the appids that were
actually fetched (the filtered work list, in order). -/
structure RunResult where
  batches : List (List JsonVal)
  files : StateFiles
  fetched : List Nat
deriving DecidableEq

/-- The `for appid in appids_to_fetch` loop of `run_collection`: fetch,
classify on Python truthiness of the returned node, append the id to the
matching state file, flush the buffer at capacity and once more at the
end if non-empty. -/
def collectLoop (oracle : Nat → Nat → HttpResponse) (rand : Nat → Nat → ℚ) (cap : Nat) :
    List Nat → StateFiles → List JsonVal → List (List JsonVal) →
      StateFiles × List (List JsonVal)
  | [], st, batch, acc => (st, if batch.isEmpty then acc else acc ++ [batch])
  | appid :: rest, st, batch, acc =>
    match (getAppDetails (oracle appid) (rand appid) appid).result with
    | some v =>
      if truthy v then
        let batch' := batch ++ [v]
        let st' := { st with processed := st.processed ++ [natToDec appid] }
        if cap ≤ batch'.length then collectLoop oracle rand cap rest st' [] (acc ++ [batch'])
        else collectLoop oracle rand cap rest st' batch' acc
      else
        collectLoop oracle rand cap rest
          { st with failed := st.failed ++ [natToDec appid] } batch acc
    | none =>
      collectLoop oracle rand cap rest
        { st with failed := st.failed ++ [natToDec appid] } batch acc

/-- `appids_to_fetch = [app['appid'] for app in full_app_list if
app['appid'] not in already_processed]`. -/
def appidsToFetch (appList : List (Nat × String)) (st : StateFiles) : List Nat :=
  (appList.filter
    (fun a => decide ((a.1 : Int) ∉ loadProcessedIds st.processed st.failed))).map (·.1)

/-- `DataCollector.run_collection`: filter the applist against the loaded
processed-id set, then run the fetch loop.  (The artifact sequence number
is the batch's position in `batches`; an empty filtered list returns
before any fetch, which coincides with running the loop on `[]`.) -/
def runCollection (oracle : Nat → Nat → HttpResponse) (rand : Nat → Nat → ℚ)
    (appList : List (Nat × String)) (st : StateFiles) (cap : Nat) : RunResult :=
  ⟨(collectLoop oracle rand cap (appidsToFetch appList st) st [] []).2,
   (collectLoop oracle rand cap (appidsToFetch appList st) st [] []).1,
   appidsToFetch appList st⟩

/-- A well-formed appdetails node (truthy `success`, a `data` dict with a
truthy `steam_appid` and `name`), as both programs expect one. -/
def mkNode (appid : Int) (name : String) : JsonVal :=
  .obj [("success", .bool true),
        ("data", .obj [("steam_appid", .num appid), ("name", .str name)])]

/-! ## The loader: `import-master-data.py`

`PostgresImporter._import_games` runs a two-pass ETL: phase 1 scans the
stream for distinct lookup values and bulk-inserts them with
`ON CONFLICT (name) DO NOTHING`, then commits; phase 2 reads the lookup
tables into name→id maps; phase 3 streams the records again, batching
fact tuples and junction tuples and executing conflict-skip bulk inserts,
then commits.  The relational store is modelled per table as an ordered
list of rows; a lookup value's surrogate id is its 1-based position
(serial assignment order). -/

/-- The relational store: the `applications` fact table keyed on `appid`
(the remaining 35 columns of the INSERT are pure projections of the
`(appid, record)` pair kept here), four junction tables keyed on their
composite pair, and four lookup tables keyed on `name`. -/
structure Database where
  applications : List (JsonVal × JsonVal)
  appDevs : List (JsonVal × Nat)
  appPubs : List (JsonVal × Nat)
  appGenres : List (JsonVal × Nat)
  appCats : List (JsonVal × Nat)
  developers : List JsonVal
  publishers : List JsonVal
  genres : List JsonVal
  categories : List JsonVal
deriving DecidableEq

def emptyDb : Database := ⟨[], [], [], [], [], [], [], [], []⟩

/-- Adding one value to a deduplicating collection (the Python `set.add`
of phase 1, determinized to first-insertion order, and equally the
`INSERT ... ON CONFLICT (name) DO NOTHING` row semantics of phase 1). -/
def addUnique (l : List JsonVal) (v : JsonVal) : List JsonVal :=
  if v ∈ l then l else l ++ [v]

/-- The four value sets collected by `_extract_lookup_data`. -/
structure LookupData where
  developers : List JsonVal
  publishers : List JsonVal
  genres : List JsonVal
  categories : List JsonVal
deriving DecidableEq

/-- One record's contribution in `_extract_lookup_data`: records whose
`success` is not truthy are skipped; genre/category contribute their
`description` fields (possibly `null`, filtered later by `if v`). -/
def extractLookupStep (ld : LookupData) (record : JsonVal) : LookupData :=
  if ¬ truthy (pyGetD record "success" .null) then ld
  else
    let data := pyGetD record "data" (.obj [])
    { developers :=
        (pyListItems (pyGetD data "developers" (.arr []))).foldl addUnique ld.developers
      publishers :=
        (pyListItems (pyGetD data "publishers" (.arr []))).foldl addUnique ld.publishers
      genres :=
        ((pyListItems (pyGetD data "genres" (.arr []))).map
          (fun g => pyGetD g "description" .null)).foldl addUnique ld.genres
      categories :=
        ((pyListItems (pyGetD data "categories" (.arr []))).map
          (fun c => pyGetD c "description" .null)).foldl addUnique ld.categories }

def extractLookupData (records : List JsonVal) : LookupData :=
  records.foldl extractLookupStep ⟨[], [], [], []⟩

/-- `_populate_lookup_tables` for one table: drop falsy values
(`[(v,) for v in values if v]`), then `INSERT ... ON CONFLICT (name) DO
NOTHING`; a new name gets the next serial id (its position). -/
def populateTable (table : List JsonVal) (vs : List JsonVal) : List JsonVal :=
  (vs.filter truthy).foldl addUnique table

def populateLookupTables (db : Database) (ld : LookupData) : Database :=
  { db with
    developers := populateTable db.developers ld.developers
    publishers := populateTable db.publishers ld.publishers
    genres := populateTable db.genres ld.genres
    categories := populateTable db.categories ld.categories }

/-- `_fetch_lookup_maps` for one table: the name → id dict built from
`SELECT name, id`; the id of a name is its 1-based position. -/
def lookupId (table : List JsonVal) (v : JsonVal) : Option Nat :=
  (table.findIdx? (fun x => decide (x = v))).map (· + 1)

structure LookupMaps where
  devMap : JsonVal → Option Nat
  pubMap : JsonVal → Option Nat
  genreMap : JsonVal → Option Nat
  catMap : JsonVal → Option Nat

def fetchLookupMaps (db : Database) : LookupMaps :=
  ⟨lookupId db.developers, lookupId db.publishers, lookupId db.genres, lookupId db.categories⟩

/-- The defensive extraction of `_insert_application_data` (lines
208-218): the record must be truthy, a dict, carry a truthy `success`
and a `data` key; `data` must yield a truthy `steam_appid` and a truthy
`name`; otherwise the record is counted skipped.  On success it
contributes the fact key, the record, and the four referenced name
lists. -/
structure AppParts where
  appid : JsonVal
  record : JsonVal
  devNames : List JsonVal
  pubNames : List JsonVal
  genreNames : List JsonVal
  catNames : List JsonVal
deriving DecidableEq

def extractApp (record : JsonVal) : Option AppParts :=
  if ¬ (truthy record && isObjVal record && truthy (pyGetD record "success" .null)
        && hasKey record "data") then none
  else
    let data := pyGetD record "data" (.obj [])
    let appid := pyGetD data "steam_appid" .null
    let name := pyGetD data "name" .null
    if ¬ (truthy appid && truthy name) then none
    else
      some ⟨appid, record,
        pyListItems (pyGetD data "developers" (.arr [])),
        pyListItems (pyGetD data "publishers" (.arr [])),
        (pyListItems (pyGetD data "genres" (.arr []))).map
          (fun g => pyGetD g "description" .null),
        (pyListItems (pyGetD data "categories" (.arr []))).map
          (fun c => pyGetD c "description" .null)⟩

/-- The four pending junction-tuple lists (`junction_batch`), holding
`(appid, maps[table].get(name))` pairs with unresolved ids as `none`. -/
structure JunctionBatch where
  dev : List (JsonVal × Option Nat)
  pub : List (JsonVal × Option Nat)
  genre : List (JsonVal × Option Nat)
  cat : List (JsonVal × Option Nat)
deriving DecidableEq

def emptyJB : JunctionBatch := ⟨[], [], [], []⟩

/-- Lines 254-257: append one record's junction tuples, resolving each
referenced name through the in-memory maps. -/
def recordJB (maps : LookupMaps) (p : AppParts) (jb : JunctionBatch) : JunctionBatch :=
  { dev := jb.dev ++ p.devNames.map (fun n => (p.appid, maps.devMap n))
    pub := jb.pub ++ p.pubNames.map (fun n => (p.appid, maps.pubMap n))
    genre := jb.genre ++ p.genreNames.map (fun n => (p.appid, maps.genreMap n))
    cat := jb.cat ++ p.catNames.map (fun n => (p.appid, maps.catMap n)) }

/-- One pending fact+junction batch handed to `_execute_application_batch`. -/
structure Flush where
  appBatch : List (JsonVal × JsonVal)
  junction : JunctionBatch
deriving DecidableEq

/-- `INSERT INTO applications ... VALUES %s ON CONFLICT (appid) DO
NOTHING` for one tuple: skipped when a row with the same `appid` key
exists (also against an earlier tuple of the same statement). -/
def insertFact (apps : List (JsonVal × JsonVal)) (row : JsonVal × JsonVal) :
    List (JsonVal × JsonVal) :=
  if apps.any (fun r => decide (r.1 = row.1)) then apps else apps ++ [row]

/-- The `[v for v in junction_batch[t] if v[1]]` filter of
`_execute_application_batch`: Python truthiness keeps exactly the
resolved, non-zero ids (serial ids are ≥ 1, so only `None` is dropped in
states reachable from `_fetch_lookup_maps`). -/
def keepJunction : JsonVal × Option Nat → Option (JsonVal × Nat)
  | (k, some i) => if i = 0 then none else some (k, i)
  | (_, none) => none

/-- `INSERT INTO application_<t> ... ON CONFLICT DO NOTHING` for one
junction tuple, keyed on the composite `(appid, lookup id)`. -/
def insertJunction (l : List (JsonVal × Nat)) (p : JsonVal × Nat) : List (JsonVal × Nat) :=
  if p ∈ l then l else l ++ [p]

/-- `_execute_application_batch`: the fact-table bulk insert followed by
the four filtered junction bulk inserts. -/
def execApplicationBatch (db : Database) (f : Flush) : Database :=
  { db with
    applications := f.appBatch.foldl insertFact db.applications
    appDevs := (f.junction.dev.filterMap keepJunction).foldl insertJunction db.appDevs
    appPubs := (f.junction.pub.filterMap keepJunction).foldl insertJunction db.appPubs
    appGenres := (f.junction.genre.filterMap keepJunction).foldl insertJunction db.appGenres
    appCats := (f.junction.cat.filterMap keepJunction).foldl insertJunction db.appCats }

/-- `batch_size = 1000` in `_insert_application_data`. -/
def BATCH_SIZE : Nat := 1000

/-- The record loop of `_insert_application_data`: accumulate fact and
junction tuples, execute a batch at capacity, and execute the final
partial batch if non-empty. -/
def insertAppLoop (maps : LookupMaps) (batchSize : Nat) (db : Database) :
    List JsonVal → List (JsonVal × JsonVal) → JunctionBatch → Database
  | [], ab, jb => if ab.isEmpty then db else execApplicationBatch db ⟨ab, jb⟩
  | r :: rs, ab, jb =>
    match extractApp r with
    | none => insertAppLoop maps batchSize db rs ab jb
    | some p =>
      let ab' := ab ++ [(p.appid, r)]
      let jb' := recordJB maps p jb
      if batchSize ≤ ab'.length then
        insertAppLoop maps batchSize (execApplicationBatch db ⟨ab', jb'⟩) rs [] emptyJB
      else insertAppLoop maps batchSize db rs ab' jb'

def insertApplicationData (maps : LookupMaps) (db : Database) (records : List JsonVal) :
    Database :=
  insertAppLoop maps BATCH_SIZE db records [] emptyJB

/-- `_import_games` without fault injection: phase 1 (extract + populate
lookups, commit), phase 2 (fetch maps), phase 3 (insert applications and
junction rows, commit). -/
def importGames (db : Database) (records : List JsonVal) : Database :=
  let ld := extractLookupData records
  let db1 := populateLookupTables db ld
  let maps := fetchLookupMaps db1
  insertApplicationData maps db1 records


/-! ## Transactions and fault injection (`run_import` / `_import_games`)

Each SQL write statement the loader issues is one operation on the
pending (uncommitted) state.  A fault oracle says which statement, by
global issue order, raises `psycopg2.Error`.  `run_import` reacts to any
such error with `conn.rollback()` — discarding the pending writes of the
in-flight transaction — and `sys.exit(1)`; `conn.commit()` makes the
pending state the committed state. -/

/-- Apply a list of write statements to the pending state. -/
def applyOps (ops : List (Database → Database)) (db : Database) : Database :=
  ops.foldl (fun d op => d |> op) db

/-- Issue statements in order starting at global index `k`; a faulting
statement raises before taking effect. -/
def runOps (fault : Nat → Bool) :
    List (Database → Database) → Nat → Database → Except Unit (Database × Nat)
  | [], k, pending => .ok (pending, k)
  | op :: ops, k, pending =>
    if fault k then .error () else runOps fault ops (k + 1) (op pending)

/-- Is some statement among the `count` starting at `start` faulting? -/
def hitsFault (fault : Nat → Bool) : Nat → Nat → Bool
  | _, 0 => false
  | start, count + 1 => fault start || hitsFault fault (start + 1) count

/-- The phase-1 statements: one `execute_values` per lookup table, issued
only when its filtered args list is non-empty
(`if not args_list: continue`), in the dict order developers, publishers,
genres, categories. -/
def populateOps (ld : LookupData) : List (Database → Database) :=
  (if (ld.developers.filter truthy).isEmpty then []
   else [fun db => { db with developers := populateTable db.developers ld.developers }])
  ++ (if (ld.publishers.filter truthy).isEmpty then []
   else [fun db => { db with publishers := populateTable db.publishers ld.publishers }])
  ++ (if (ld.genres.filter truthy).isEmpty then []
   else [fun db => { db with genres := populateTable db.genres ld.genres }])
  ++ (if (ld.categories.filter truthy).isEmpty then []
   else [fun db => { db with categories := populateTable db.categories ld.categories }])

/-- The statements of one `_execute_application_batch` call: the fact
insert, then one junction insert per non-empty unfiltered junction list
(`if junction_batch[t]:`). -/
def flushOps (f : Flush) : List (Database → Database) :=
  [fun db => { db with applications := f.appBatch.foldl insertFact db.applications }]
  ++ (if f.junction.dev.isEmpty then []
   else [fun db =>
     { db with appDevs := (f.junction.dev.filterMap keepJunction).foldl insertJunction db.appDevs }])
  ++ (if f.junction.pub.isEmpty then []
   else [fun db =>
     { db with appPubs := (f.junction.pub.filterMap keepJunction).foldl insertJunction db.appPubs }])
  ++ (if f.junction.genre.isEmpty then []
   else [fun db =>
     { db with appGenres := (f.junction.genre.filterMap keepJunction).foldl insertJunction db.appGenres }])
  ++ (if f.junction.cat.isEmpty then []
   else [fun db =>
     { db with appCats := (f.junction.cat.filterMap keepJunction).foldl insertJunction db.appCats }])

/-- The flush sequence `_insert_application_data` hands to
`_execute_application_batch` (batches at capacity, then the final partial
batch); it depends only on the stream and the maps, never on the store. -/
def appFlushes (maps : LookupMaps) (batchSize : Nat) :
    List JsonVal → List (JsonVal × JsonVal) → JunctionBatch → List Flush
  | [], ab, jb => if ab.isEmpty then [] else [⟨ab, jb⟩]
  | r :: rs, ab, jb =>
    match extractApp r with
    | none => appFlushes maps batchSize rs ab jb
    | some p =>
      let ab' := ab ++ [(p.appid, r)]
      let jb' := recordJB maps p jb
      if batchSize ≤ ab'.length then ⟨ab', jb'⟩ :: appFlushes maps batchSize rs [] emptyJB
      else appFlushes maps batchSize rs ab' jb'

/-- All phase-3 statements in issue order. -/
def insertOps (maps : LookupMaps) (batchSize : Nat) (records : List JsonVal) :
    List (Database → Database) :=
  ((appFlushes maps batchSize records [] emptyJB).map flushOps).flatten

/-- `run_import` around `_import_games`, with fault injection: returns
the final committed store and the process exit code. -/
def runImportGames (fault : Nat → Bool) (db : Database) (records : List JsonVal) :
    Database × Nat :=
  match runOps fault (populateOps (extractLookupData records)) 0 db with
  | .error _ => (db, 1)
  | .ok (c1, k) =>
    match runOps fault (insertOps (fetchLookupMaps c1) BATCH_SIZE records) k c1 with
    | .error _ => (c1, 1)
    | .ok (c2, _) => (c2, 0)

/-! ## The reviews invocation mode (`_import_reviews`)

`_insert_review_data` begins with `skipped_apps = Counter()` (line 293),
but `collections.Counter` is never imported by import-master-data.py;
evaluating the name raises `NameError` before the stream is read, and
`run_import` catches only `(psycopg2.Error, IOError, ijson.JSONError)`,
so the exception propagates and aborts the process.  The intended
pre-flight logic (skip any record whose `appid` is absent from
`existing_appids`) is dead code. -/

def insertReviewData (db : Database) (reviewRecords : List JsonVal)
    (existingAppids : List JsonVal) : Except String Database :=
  Except.error "NameError: name Counter is not defined"

/-- `_import_reviews`: fetch the existing fact-table keys, then run the
(dead) insert loop. -/
def importReviews (db : Database) (reviewRecords : List JsonVal) : Except String Database :=
  insertReviewData db reviewRecords (db.applications.map (·.1))

/-! ## State-file loading: membership characterization (C10, and reused by C2) -/

theorem mem_loadProcessedIds_foldl (l : List String) (s : Finset Int) (n : Int) :
    (n ∈ l.foldl
      (fun s line => match pyInt line with | some m => insert m s | none => s) s)
      ↔ n ∈ s ∨ ∃ line ∈ l, pyInt line = some n := by
  induction l generalizing s with
  | nil => simp
  | cons line l ih =>
    rw [List.foldl_cons]
    cases hline : pyInt line with
    | none =>
      rw [ih]
      constructor
      · rintro (hs | ⟨x, hx, e⟩)
        · exact Or.inl hs
        · exact Or.inr ⟨x, List.mem_cons_of_mem _ hx, e⟩
      · rintro (hs | ⟨x, hx, e⟩)
        · exact Or.inl hs
        · rcases List.mem_cons.mp hx with rfl | hx
          · rw [hline] at e; cases e
          · exact Or.inr ⟨x, hx, e⟩
    | some m =>
      rw [ih]
      simp only [Finset.mem_insert]
      constructor
      · rintro ((rfl | hs) | ⟨x, hx, e⟩)
        · exact Or.inr ⟨line, List.mem_cons_self _ _, hline⟩
        · exact Or.inl hs
        · exact Or.inr ⟨x, List.mem_cons_of_mem _ hx, e⟩
      · rintro (hs | ⟨x, hx, e⟩)
        · exact Or.inl (Or.inr hs)
        · rcases List.mem_cons.mp hx with rfl | hx
          · rw [hline] at e
            exact Or.inl (Or.inl (Option.some.inj e).symm)
          · exact Or.inr ⟨x, hx, e⟩

theorem mem_loadProcessedIds (p f : List String) (n : Int) :
    n ∈ loadProcessedIds p f ↔ ∃ line ∈ p ++ f, pyInt line = some n := by
  unfold loadProcessedIds
  rw [mem_loadProcessedIds_foldl]
  simp

/-- C10: loading the processed-id set returns exactly the integers that
parse (Python `int`, after stripping whitespace) from the lines of the
two state files; a malformed line is silently skipped — it never aborts
the load (the loader is total) and removes only itself from the skip
set. -/
theorem C10_state_load_skips_malformed (p f : List String) (n : Int) :
    (n ∈ loadProcessedIds p f ↔ ∃ line ∈ p ++ f, pyInt line = some n)
    ∧ (∀ bad : String, pyInt bad = none →
        loadProcessedIds (p ++ [bad]) f = loadProcessedIds p f) := by
  refine ⟨mem_loadProcessedIds p f n, fun bad hbad => ?_⟩
  apply Finset.ext
  intro m
  rw [mem_loadProcessedIds, mem_loadProcessedIds]
  constructor
  · rintro ⟨x, hx, e⟩
    simp only [List.mem_append, List.mem_singleton] at hx
    rcases hx with (hx | rfl) | hx
    · exact ⟨x, List.mem_append_left _ hx, e⟩
    · rw [hbad] at e; cases e
    · exact ⟨x, List.mem_append_right _ hx, e⟩
  · rintro ⟨x, hx, e⟩
    rcases List.mem_append.mp hx with hx | hx
    · exact ⟨x, List.mem_append_left _ (List.mem_append_left _ hx), e⟩
    · exact ⟨x, List.mem_append_right _ hx, e⟩

theorem C10_witness :
    ((10 : Int) ∈ loadProcessedIds [" 10", "junk"] ["20"])
    ∧ loadProcessedIds ([" 10", "junk"] ++ ["zz"]) ["20"]
        = loadProcessedIds [" 10", "junk"] ["20"] :=
  ⟨(C10_state_load_skips_malformed [" 10", "junk"] ["20"] 10).1.mpr
      ⟨" 10", by decide, by decide⟩,
   (C10_state_load_skips_malformed [" 10", "junk"] ["20"] 10).2 "zz" (by decide)⟩

/-! ## C2: ids in the state files are filtered out before any fetch -/

/-- The fetch loop (i) never removes a line from either state file and
(ii) appends every processed id's decimal line to one of them. -/
theorem collectLoop_state (oracle : Nat → Nat → HttpResponse) (rand : Nat → Nat → ℚ)
    (cap : Nat) (ids : List Nat) :
    ∀ (st : StateFiles) (batch : List JsonVal) (acc : List (List JsonVal)),
      (∀ l ∈ st.processed, l ∈ (collectLoop oracle rand cap ids st batch acc).1.processed)
      ∧ (∀ l ∈ st.failed, l ∈ (collectLoop oracle rand cap ids st batch acc).1.failed)
      ∧ (∀ n ∈ ids,
          natToDec n ∈ (collectLoop oracle rand cap ids st batch acc).1.processed
          ∨ natToDec n ∈ (collectLoop oracle rand cap ids st batch acc).1.failed) := by
  induction ids with
  | nil =>
    intro st batch acc
    rw [collectLoop]
    exact ⟨fun l h => h, fun l h => h, fun n h => absurd h (List.not_mem_nil n)⟩
  | cons i rest ih =>
    intro st batch acc
    rw [collectLoop]
    cases hres : (getAppDetails (oracle i) (rand i) i).result with
    | some v =>
      dsimp only
      by_cases htr : truthy v
      · rw [if_pos htr]
        split
        · refine ⟨fun l h => (ih _ _ _).1 l (List.mem_append_left _ h),
            fun l h => (ih _ _ _).2.1 l h, fun n h => ?_⟩
          rcases List.mem_cons.mp h with rfl | h
          · exact Or.inl ((ih _ _ _).1 _ (List.mem_append_right _ (by simp)))
          · exact (ih _ _ _).2.2 n h
        · refine ⟨fun l h => (ih _ _ _).1 l (List.mem_append_left _ h),
            fun l h => (ih _ _ _).2.1 l h, fun n h => ?_⟩
          rcases List.mem_cons.mp h with rfl | h
          · exact Or.inl ((ih _ _ _).1 _ (List.mem_append_right _ (by simp)))
          · exact (ih _ _ _).2.2 n h
      · rw [if_neg htr]
        refine ⟨fun l h => (ih _ _ _).1 l h,
          fun l h => (ih _ _ _).2.1 l (List.mem_append_left _ h), fun n h => ?_⟩
        rcases List.mem_cons.mp h with rfl | h
        · exact Or.inr ((ih _ _ _).2.1 _ (List.mem_append_right _ (by simp)))
        · exact (ih _ _ _).2.2 n h
    | none =>
      dsimp only
      refine ⟨fun l h => (ih _ _ _).1 l h,
        fun l h => (ih _ _ _).2.1 l (List.mem_append_left _ h), fun n h => ?_⟩
      rcases List.mem_cons.mp h with rfl | h
      · exact Or.inr ((ih _ _ _).2.1 _ (List.mem_append_right _ (by simp)))
      · exact (ih _ _ _).2.2 n h

theorem mem_appidsToFetch {appList : List (Nat × String)} {st : StateFiles} {n : Nat}
    (h : n ∈ appidsToFetch appList st) :
    (n : Int) ∉ loadProcessedIds st.processed st.failed := by
  simp only [appidsToFetch, List.mem_map, List.mem_filter] at h
  obtain ⟨a, ⟨_, hdec⟩, rfl⟩ := h
  exact of_decide_eq_true hdec

/-- C2: an id recorded in either state file before the run starts is
filtered out of the work list, so the crawler issues no fetch for it; and
every id the first run fetched is in the first run's final state files,
so a second run started from them fetches none of them again. -/
theorem C2_idempotent_resume (oracle oracle2 : Nat → Nat → HttpResponse)
    (rand rand2 : Nat → Nat → ℚ) (appList appList2 : List (Nat × String))
    (st : StateFiles) (cap cap2 : Nat) :
    (∀ n : Nat, (n : Int) ∈ loadProcessedIds st.processed st.failed →
        n ∉ (runCollection oracle rand appList st cap).fetched)
    ∧ (∀ n ∈ (runCollection oracle rand appList st cap).fetched,
        n ∉ (runCollection oracle2 rand2 appList2
              (runCollection oracle rand appList st cap).files cap2).fetched) := by
  constructor
  · intro n hmem hfetch
    exact mem_appidsToFetch hfetch hmem
  · intro n hfetch hfetch2
    have hline := (collectLoop_state oracle rand cap (appidsToFetch appList st)
      st [] []).2.2 n hfetch
    have hmem2 : (n : Int) ∈ loadProcessedIds
        (runCollection oracle rand appList st cap).files.processed
        (runCollection oracle rand appList st cap).files.failed := by
      rw [mem_loadProcessedIds]
      rcases hline with hp | hf
      · exact ⟨natToDec n, List.mem_append_left _ hp, pyInt_natToDec n⟩
      · exact ⟨natToDec n, List.mem_append_right _ hf, pyInt_natToDec n⟩
    exact mem_appidsToFetch hfetch2 hmem2

theorem C2_witness :
    10 ∉ (runCollection (fun _ _ => .status 429) (fun _ _ => 0)
      [(10, "A")] ⟨["10"], []⟩ 5).fetched :=
  (C2_idempotent_resume (fun _ _ => .status 429) (fun _ _ => .status 429)
    (fun _ _ => 0) (fun _ _ => 0) [(10, "A")] [(10, "A")] ⟨["10"], []⟩ 5 5).1
    10 (by decide)

/-! ## C5: backoff monotonicity under persistent HTTP 429 -/

/-- C5: when every attempt answers HTTP 429, `get_app_details` sleeps
`5 ** attempt + random.random() * 0.5` after each of its
`API_MAX_RETRIES` attempts; the sleep sequence is non-decreasing for
every draw sequence in `[0,1)` — indeed `base^n + j1 ≤ base^(n+1) + j2`
for every pair of jitters in `[0,1)` — the call returns `None`, and the
collector then appends the id to the failed-ids state file. -/
theorem C5_backoff_monotone (rand : Nat → ℚ) (hrand : ∀ k, 0 ≤ rand k ∧ rand k < 1)
    (appid : Nat) (name : String) :
    (getAppDetails (fun _ => .status 429) rand appid).sleeps
        = (List.range API_MAX_RETRIES).map (fun k => backoffSleep k (rand k))
    ∧ List.Chain' (· ≤ ·) (getAppDetails (fun _ => .status 429) rand appid).sleeps
    ∧ (getAppDetails (fun _ => .status 429) rand appid).result = none
    ∧ (∀ (n : Nat) (j1 j2 : ℚ), 0 ≤ j1 → j1 < 1 → 0 ≤ j2 → j2 < 1 →
        (5 : ℚ) ^ n + j1 ≤ (5 : ℚ) ^ (n + 1) + j2)
    ∧ (runCollection (fun _ _ => .status 429) (fun _ => rand) [(appid, name)]
        ⟨[], []⟩ 500).files.failed = [natToDec appid] := by
  refine ⟨rfl, ?_, rfl, ?_, rfl⟩
  · show List.Chain' (· ≤ ·)
      [backoffSleep 0 (rand 0), backoffSleep 1 (rand 1), backoffSleep 2 (rand 2)]
    have h0 := hrand 0
    have h1 := hrand 1
    have h2 := hrand 2
    refine List.chain'_cons.mpr ⟨?_, List.chain'_cons.mpr ⟨?_, List.chain'_singleton _⟩⟩
    · unfold backoffSleep; norm_num; linarith [h0.1, h0.2, h1.1, h1.2]
    · unfold backoffSleep; norm_num; linarith [h1.1, h1.2, h2.1, h2.2]
  · intro n j1 j2 hj1 hj1u hj2 hj2u
    have h5 : (1 : ℚ) ≤ 5 ^ n := one_le_pow₀ (by norm_num)
    rw [pow_succ]
    nlinarith [h5]

theorem C5_witness :
    (getAppDetails (fun _ => .status 429) (fun _ => 0) 7).result = none
    ∧ List.Chain' (· ≤ ·) (getAppDetails (fun _ => .status 429) (fun _ => 0) 7).sleeps
    ∧ (runCollection (fun _ _ => .status 429) (fun _ _ => 0) [(7, "A")]
        ⟨[], []⟩ 500).files.failed = [natToDec 7] :=
  ⟨(C5_backoff_monotone (fun _ => 0) (fun _ => ⟨le_refl 0, by norm_num⟩) 7 "A").2.2.1,
   (C5_backoff_monotone (fun _ => 0) (fun _ => ⟨le_refl 0, by norm_num⟩) 7 "A").2.1,
   (C5_backoff_monotone (fun _ => 0) (fun _ => ⟨le_refl 0, by norm_num⟩) 7 "A").2.2.2.2⟩

/-! ## C1: classification of an HTTP 200 response -/

/-- C1 counterexample: the appdetails node for id 10 carries
`success: false`, yet the crawler appends it to the batch, flushes it
into a Batch artifact, and marks id 10 Succeeded — `get_app_details`
returns `data.get(str(appid))` without consulting the success flag. -/
theorem C1_counterexample :
    ((runCollection (fun _ _ => .ok (.obj [("10", .obj [("success", .bool false)])]))
        (fun _ _ => 0) [(10, "X")] ⟨[], []⟩ 1).batches
      = [[.obj [("success", .bool false)]]])
    ∧ (runCollection (fun _ _ => .ok (.obj [("10", .obj [("success", .bool false)])]))
        (fun _ _ => 0) [(10, "X")] ⟨[], []⟩ 1).files.processed = ["10"]
    ∧ pyGet (.obj [("success", .bool false)]) "success" = some (.bool false) := by
  decide

theorem getAppDetails_ok {resp : Nat → HttpResponse} {rand : Nat → ℚ} {appid : Nat}
    {payload : JsonVal} (h : resp 0 = .ok payload) :
    getAppDetails resp rand appid = ⟨http200Result payload appid, []⟩ := by
  show fetchLoop resp rand appid 0 (2 + 1) = _
  rw [fetchLoop, h]

/-- `if details:` holds for the value of `data.get(str(appid))` exactly
when the payload is truthy and holds a truthy node under the id's key. -/
theorem http200_truthy_iff (payload : JsonVal) (appid : Nat) :
    (∃ v, http200Result payload appid = some v ∧ truthy v = true)
      ↔ truthy payload = true
        ∧ ∃ v, pyGet payload (natToDec appid) = some v ∧ truthy v = true := by
  unfold http200Result
  by_cases hp : truthy payload
  · simp only [hp, true_and]
    cases hk : pyGet payload (natToDec appid) with
    | none => simp [hasKey, hk]
    | some v =>
      have hkey : hasKey payload (natToDec appid) = true := by
        simp [hasKey, hk]
      simp only [hkey, Bool.and_self, if_pos, hk, Option.some_bind]
      cases v with
      | null => simp [jsonToPy, truthy]
      | bool b => simp [jsonToPy]
      | num n => simp [jsonToPy]
      | str s => simp [jsonToPy]
      | arr l => simp [jsonToPy]
      | obj l => simp [jsonToPy]
  · simp only [Bool.not_eq_true] at hp
    simp [hp]

/-- One work item, empty state files, capacity 1: the run's outcome as a
function of what `get_app_details` returned. -/
theorem runCollection_single (oracle : Nat → Nat → HttpResponse) (rand : Nat → Nat → ℚ)
    (appid : Nat) (name : String) :
    runCollection oracle rand [(appid, name)] ⟨[], []⟩ 1
      = match (getAppDetails (oracle appid) (rand appid) appid).result with
        | some v =>
          if truthy v then ⟨[[v]], ⟨[natToDec appid], []⟩, [appid]⟩
          else ⟨[], ⟨[], [natToDec appid]⟩, [appid]⟩
        | none => ⟨[], ⟨[], [natToDec appid]⟩, [appid]⟩ := by
  have htf : appidsToFetch [(appid, name)] ⟨[], []⟩ = [appid] := by
    simp [appidsToFetch, loadProcessedIds]
  unfold runCollection
  rw [htf, collectLoop]
  cases hres : (getAppDetails (oracle appid) (rand appid) appid).result with
  | some v =>
    dsimp only
    by_cases htr : truthy v
    · rw [if_pos htr, if_pos (by simp)]
      rw [collectLoop]
      simp [htr]
    · rw [if_neg htr]
      rw [collectLoop]
      simp [htr]
  | none =>
    dsimp only
    rw [collectLoop]
    simp

/-- C1 amended: for a work item whose fetch returns HTTP 200, the crawler
classifies the record as Success — appending it to the batch and marking
the id Succeeded — if and only if the response payload is truthy and
carries a truthy node under the id's key; the node's `success` flag is
not consulted, so a record lacking the flag or carrying `success: false`
can enter a Batch artifact (success filtering happens later, in the
loader's validation). -/
theorem C1_truthy_key_classification (oracle : Nat → Nat → HttpResponse)
    (rand : Nat → Nat → ℚ) (appid : Nat) (name : String) (payload : JsonVal)
    (hresp : oracle appid 0 = .ok payload) :
    ((runCollection oracle rand [(appid, name)] ⟨[], []⟩ 1).batches ≠ []
      ↔ truthy payload = true
        ∧ ∃ v, pyGet payload (natToDec appid) = some v ∧ truthy v = true)
    ∧ (∀ v, http200Result payload appid = some v → truthy v = true →
        (runCollection oracle rand [(appid, name)] ⟨[], []⟩ 1).batches = [[v]]
        ∧ (runCollection oracle rand [(appid, name)] ⟨[], []⟩ 1).files
            = ⟨[natToDec appid], []⟩)
    ∧ ((∀ v, http200Result payload appid = some v → truthy v = false) →
        (runCollection oracle rand [(appid, name)] ⟨[], []⟩ 1).batches = []
        ∧ (runCollection oracle rand [(appid, name)] ⟨[], []⟩ 1).files
            = ⟨[], [natToDec appid]⟩) := by
  have hget : (getAppDetails (oracle appid) (rand appid) appid).result
      = http200Result payload appid := by
    rw [getAppDetails_ok hresp]
  have hrun := runCollection_single oracle rand appid name
  rw [hget] at hrun
  refine ⟨?_, ?_, ?_⟩
  · rw [← http200_truthy_iff]
    constructor
    · intro hne
      cases hv : http200Result payload appid with
      | none => rw [hrun, hv] at hne; simp at hne
      | some v =>
        refine ⟨v, rfl, ?_⟩
        by_contra htr
        simp only [Bool.not_eq_true] at htr
        rw [hrun, hv] at hne
        simp [htr] at hne
    · rintro ⟨v, hv, htr⟩ hne
      rw [hrun, hv] at hne
      simp [htr] at hne
  · intro v hv htr
    rw [hrun, hv]
    simp [htr]
  · intro hall
    cases hv : http200Result payload appid with
    | none => rw [hrun, hv]; simp
    | some v =>
      rw [hrun, hv]
      simp [hall v hv]

theorem C1_witness :
    (runCollection (fun _ _ => .ok (.obj [("10", mkNode 10 "X")])) (fun _ _ => 0)
      [(10, "X")] ⟨[], []⟩ 1).batches = [[mkNode 10 "X"]]
    ∧ (runCollection (fun _ _ => .ok (.obj [("10", mkNode 10 "X")])) (fun _ _ => 0)
      [(10, "X")] ⟨[], []⟩ 1).files = ⟨["10"], []⟩ :=
  (C1_truthy_key_classification (fun _ _ => .ok (.obj [("10", mkNode 10 "X")]))
    (fun _ _ => 0) 10 "X" (.obj [("10", mkNode 10 "X")]) rfl).2.1
    (mkNode 10 "X") (by decide) (by decide)

/-! ## C6: the three-item example run -/

/-- The example universe: id 10 and 30 succeed with well-formed nodes,
id 20 answers HTTP 404 on every attempt. -/
def exampleOracle : Nat → Nat → HttpResponse := fun appid _ =>
  if appid = 10 then .ok (.obj [("10", mkNode 10 "A")])
  else if appid = 20 then .status 404
  else .ok (.obj [("30", mkNode 30 "C")])

/-- C6 counterexample: with capacity 2 and the 404 at id 20, the run
flushes a single Batch artifact holding both surviving records — not a
first artifact `{10}` and a second partial artifact `{30}` — because a
failed fetch adds nothing to the buffer and no flush happens before the
buffer reaches capacity. -/
theorem C6_counterexample :
    ((runCollection exampleOracle (fun _ _ => 0)
        [(10, "A"), (20, "B"), (30, "C")] ⟨[], []⟩ 2).batches
      = [[mkNode 10 "A", mkNode 30 "C"]])
    ∧ (runCollection exampleOracle (fun _ _ => 0)
        [(10, "A"), (20, "B"), (30, "C")] ⟨[], []⟩ 2).batches.length = 1
    ∧ (runCollection exampleOracle (fun _ _ => 0)
        [(10, "A"), (20, "B"), (30, "C")] ⟨[], []⟩ 2).batches
      ≠ [[mkNode 10 "A"], [mkNode 30 "C"]] := by
  decide

/-- C6 amended: the run writes exactly one Batch artifact holding the
records of ids 10 and 30 in processing order, the state store ends with
Succeeded = {10, 30} and Failed = {20}, and loading the produced
artifacts into an empty store inserts exactly 2 fact rows. -/
theorem C6_example_run :
    ((runCollection exampleOracle (fun _ _ => 0)
        [(10, "A"), (20, "B"), (30, "C")] ⟨[], []⟩ 2).batches
      = [[mkNode 10 "A", mkNode 30 "C"]])
    ∧ (runCollection exampleOracle (fun _ _ => 0)
        [(10, "A"), (20, "B"), (30, "C")] ⟨[], []⟩ 2).files
      = ⟨["10", "30"], ["20"]⟩
    ∧ loadProcessedIds (runCollection exampleOracle (fun _ _ => 0)
        [(10, "A"), (20, "B"), (30, "C")] ⟨[], []⟩ 2).files.processed []
      = {10, 30}
    ∧ loadProcessedIds [] (runCollection exampleOracle (fun _ _ => 0)
        [(10, "A"), (20, "B"), (30, "C")] ⟨[], []⟩ 2).files.failed
      = {20}
    ∧ (importGames emptyDb ((runCollection exampleOracle (fun _ _ => 0)
        [(10, "A"), (20, "B"), (30, "C")] ⟨[], []⟩ 2).batches.flatten)
      ).applications.length = 2 := by
  decide

/-! ## C7: a lookup-resolution miss drops only that junction tuple -/

theorem lookupId_ne_zero {table : List JsonVal} {v : JsonVal} {i : Nat}
    (h : lookupId table v = some i) : i ≠ 0 := by
  unfold lookupId at h
  cases hf : table.findIdx? (fun x => decide (x = v)) with
  | none => rw [hf] at h; cases h
  | some j => rw [hf] at h; simp at h; omega

theorem keepJunction_lookup (t : List JsonVal) (k n : JsonVal) :
    keepJunction (k, lookupId t n) = (lookupId t n).map (fun i => (k, i)) := by
  cases hln : lookupId t n with
  | none => rfl
  | some i =>
    have : i ≠ 0 := lookupId_ne_zero hln
    simp [keepJunction, this]

theorem filterMap_keep_map (t : List JsonVal) (k : JsonVal) (names : List JsonVal) :
    (names.map (fun n => (k, lookupId t n))).filterMap keepJunction
      = names.filterMap (fun n => (lookupId t n).map (fun i => (k, i))) := by
  rw [List.filterMap_map]
  congr 1
  funext n
  exact keepJunction_lookup t k n

/-- C7: for a valid success record whose fact key is new, the loader
inserts the fact row whatever the lookup maps resolve, and each junction
table receives exactly the tuples whose referenced name resolves to an
id — a tuple whose resolution is `None` is dropped on its own, never the
record. -/
theorem C7_miss_drops_single_tuple (db : Database) (r : JsonVal) (p : AppParts)
    (hx : extractApp r = some p)
    (hnew : ∀ row ∈ db.applications, row.1 ≠ p.appid) :
    ((p.appid, r) ∈ (insertApplicationData (fetchLookupMaps db) db [r]).applications)
    ∧ (insertApplicationData (fetchLookupMaps db) db [r]).appDevs
        = (p.devNames.filterMap
            (fun n => (lookupId db.developers n).map (fun i => (p.appid, i)))).foldl
          insertJunction db.appDevs
    ∧ (insertApplicationData (fetchLookupMaps db) db [r]).appPubs
        = (p.pubNames.filterMap
            (fun n => (lookupId db.publishers n).map (fun i => (p.appid, i)))).foldl
          insertJunction db.appPubs
    ∧ (insertApplicationData (fetchLookupMaps db) db [r]).appGenres
        = (p.genreNames.filterMap
            (fun n => (lookupId db.genres n).map (fun i => (p.appid, i)))).foldl
          insertJunction db.appGenres
    ∧ (insertApplicationData (fetchLookupMaps db) db [r]).appCats
        = (p.catNames.filterMap
            (fun n => (lookupId db.categories n).map (fun i => (p.appid, i)))).foldl
          insertJunction db.appCats := by
  have hrun : insertApplicationData (fetchLookupMaps db) db [r]
      = execApplicationBatch db
          ⟨[(p.appid, r)], recordJB (fetchLookupMaps db) p emptyJB⟩ := by
    unfold insertApplicationData
    rw [insertAppLoop, hx]
    dsimp only
    rw [if_neg (by simp [BATCH_SIZE])]
    rw [insertAppLoop]
    simp [emptyJB]
  have hfact : [(p.appid, r)].foldl insertFact db.applications
      = db.applications ++ [(p.appid, r)] := by
    rw [List.foldl_cons, List.foldl_nil]
    unfold insertFact
    rw [if_neg]
    simp only [List.any_eq_true, decide_eq_true_eq, not_exists]
    rintro x ⟨hx', e⟩
    exact hnew x hx' e
  rw [hrun]
  unfold execApplicationBatch recordJB fetchLookupMaps
  refine ⟨?_, ?_, ?_, ?_, ?_⟩
  · dsimp only
    rw [hfact]
    exact List.mem_append_right _ (by simp)
  · dsimp only
    rw [show emptyJB.dev = [] from rfl, List.nil_append, filterMap_keep_map]
  · dsimp only
    rw [show emptyJB.pub = [] from rfl, List.nil_append, filterMap_keep_map]
  · dsimp only
    rw [show emptyJB.genre = [] from rfl, List.nil_append, filterMap_keep_map]
  · dsimp only
    rw [show emptyJB.cat = [] from rfl, List.nil_append, filterMap_keep_map]

/-- A record referencing a developer name absent from every lookup map. -/
def exampleMissRecord : JsonVal :=
  .obj [("success", .bool true),
        ("data", .obj [("steam_appid", .num 7), ("name", .str "G"),
                       ("developers", .arr [.str "Nowhere"])])]

def exampleMissParts : AppParts :=
  ⟨.num 7, exampleMissRecord, [.str "Nowhere"], [], [], []⟩

theorem C7_witness :
    ((JsonVal.num 7, exampleMissRecord)
        ∈ (insertApplicationData (fetchLookupMaps emptyDb) emptyDb
            [exampleMissRecord]).applications)
    ∧ (insertApplicationData (fetchLookupMaps emptyDb) emptyDb
        [exampleMissRecord]).appDevs
      = (exampleMissParts.devNames.filterMap
          (fun n => (lookupId emptyDb.developers n).map
            (fun i => (exampleMissParts.appid, i)))).foldl
        insertJunction emptyDb.appDevs :=
  ⟨(C7_miss_drops_single_tuple emptyDb exampleMissRecord exampleMissParts
      (by decide) (by decide)).1,
   (C7_miss_drops_single_tuple emptyDb exampleMissRecord exampleMissParts
      (by decide) (by decide)).2.1⟩

/-! ## C3: re-loading the same artifact creates no duplicate rows -/

theorem mem_foldl_addUnique_of_mem {l : List JsonVal} {v : JsonVal} (vs : List JsonVal)
    (h : v ∈ l) : v ∈ vs.foldl addUnique l := by
  induction vs generalizing l with
  | nil => exact h
  | cons w ws ih =>
    rw [List.foldl_cons]
    apply ih
    unfold addUnique
    split
    · exact h
    · exact List.mem_append_left _ h

theorem mem_foldl_addUnique_self (l : List JsonVal) {v : JsonVal} {vs : List JsonVal}
    (h : v ∈ vs) : v ∈ vs.foldl addUnique l := by
  induction vs generalizing l with
  | nil => cases h
  | cons w ws ih =>
    rw [List.foldl_cons]
    rcases List.mem_cons.mp h with rfl | h
    · apply mem_foldl_addUnique_of_mem
      unfold addUnique
      split
      · assumption
      · exact List.mem_append_right _ (by simp)
    · exact ih _ h

theorem foldl_addUnique_eq_self {l : List JsonVal} {vs : List JsonVal}
    (h : ∀ v ∈ vs, v ∈ l) : vs.foldl addUnique l = l := by
  induction vs with
  | nil => rfl
  | cons w ws ih =>
    rw [List.foldl_cons]
    have hw : addUnique l w = l := by
      unfold addUnique
      rw [if_pos (h w (by simp))]
    rw [hw]
    exact ih (fun v hv => h v (List.mem_cons_of_mem _ hv))

theorem populateTable_idem (t : List JsonVal) (vs : List JsonVal) :
    populateTable (populateTable t vs) vs = populateTable t vs := by
  unfold populateTable
  exact foldl_addUnique_eq_self (fun v hv => mem_foldl_addUnique_self t hv)

theorem mem_foldl_insertFact_of_mem {l : List (JsonVal × JsonVal)} {x : JsonVal × JsonVal}
    (rows : List (JsonVal × JsonVal)) (h : x ∈ l) : x ∈ rows.foldl insertFact l := by
  induction rows generalizing l with
  | nil => exact h
  | cons r rs ih =>
    rw [List.foldl_cons]
    apply ih
    unfold insertFact
    split
    · exact h
    · exact List.mem_append_left _ h

theorem key_mem_foldl_insertFact {l : List (JsonVal × JsonVal)}
    {rows : List (JsonVal × JsonVal)} :
    ∀ row ∈ rows, ∃ x ∈ rows.foldl insertFact l, x.1 = row.1 := by
  induction rows generalizing l with
  | nil => intro row h; cases h
  | cons r rs ih =>
    intro row h
    rw [List.foldl_cons]
    rcases List.mem_cons.mp h with rfl | h
    · by_cases hc : (l.any (fun x => decide (x.1 = row.1)) : Bool)
      · obtain ⟨x, hx, e⟩ := List.any_eq_true.mp hc
        exact ⟨x, mem_foldl_insertFact_of_mem _ (by unfold insertFact; rw [if_pos hc]; exact hx),
          of_decide_eq_true e⟩
      · refine ⟨row, mem_foldl_insertFact_of_mem _ ?_, rfl⟩
        unfold insertFact
        rw [if_neg hc]
        exact List.mem_append_right _ (by simp)
    · exact ih row h

theorem foldl_insertFact_eq_self {l : List (JsonVal × JsonVal)}
    {rows : List (JsonVal × JsonVal)} (h : ∀ row ∈ rows, ∃ x ∈ l, x.1 = row.1) :
    rows.foldl insertFact l = l := by
  induction rows with
  | nil => rfl
  | cons r rs ih =>
    rw [List.foldl_cons]
    have hr : insertFact l r = l := by
      unfold insertFact
      rw [if_pos]
      obtain ⟨x, hx, e⟩ := h r (by simp)
      exact List.any_eq_true.mpr ⟨x, hx, decide_eq_true e⟩
    rw [hr]
    exact ih (fun row hrow => h row (List.mem_cons_of_mem _ hrow))

theorem mem_foldl_insertJunction_of_mem {l : List (JsonVal × Nat)} {q : JsonVal × Nat}
    (ps : List (JsonVal × Nat)) (h : q ∈ l) : q ∈ ps.foldl insertJunction l := by
  induction ps generalizing l with
  | nil => exact h
  | cons p ps ih =>
    rw [List.foldl_cons]
    apply ih
    unfold insertJunction
    split
    · exact h
    · exact List.mem_append_left _ h

theorem self_mem_foldl_insertJunction {l : List (JsonVal × Nat)}
    {ps : List (JsonVal × Nat)} : ∀ q ∈ ps, q ∈ ps.foldl insertJunction l := by
  induction ps generalizing l with
  | nil => intro q h; cases h
  | cons p ps ih =>
    intro q h
    rw [List.foldl_cons]
    rcases List.mem_cons.mp h with rfl | h
    · apply mem_foldl_insertJunction_of_mem
      unfold insertJunction
      split
      · assumption
      · exact List.mem_append_right _ (by simp)
    · exact ih q h

theorem foldl_insertJunction_eq_self {l : List (JsonVal × Nat)}
    {ps : List (JsonVal × Nat)} (h : ∀ q ∈ ps, q ∈ l) :
    ps.foldl insertJunction l = l := by
  induction ps with
  | nil => rfl
  | cons p ps ih =>
    rw [List.foldl_cons]
    have hp : insertJunction l p = l := by
      unfold insertJunction
      rw [if_pos (h p (by simp))]
    rw [hp]
    exact ih (fun q hq => h q (List.mem_cons_of_mem _ hq))

/-- All of a flush's content — fact keys and kept junction tuples — is
already present in the store. -/
def flushContentIn (db : Database) (f : Flush) : Prop :=
  (∀ row ∈ f.appBatch, ∃ x ∈ db.applications, x.1 = row.1)
  ∧ (∀ q ∈ f.junction.dev.filterMap keepJunction, q ∈ db.appDevs)
  ∧ (∀ q ∈ f.junction.pub.filterMap keepJunction, q ∈ db.appPubs)
  ∧ (∀ q ∈ f.junction.genre.filterMap keepJunction, q ∈ db.appGenres)
  ∧ (∀ q ∈ f.junction.cat.filterMap keepJunction, q ∈ db.appCats)

/-- Conflict-skip inserts only add rows. -/
def dbLe (d1 d2 : Database) : Prop :=
  (∀ x ∈ d1.applications, x ∈ d2.applications)
  ∧ (∀ q ∈ d1.appDevs, q ∈ d2.appDevs)
  ∧ (∀ q ∈ d1.appPubs, q ∈ d2.appPubs)
  ∧ (∀ q ∈ d1.appGenres, q ∈ d2.appGenres)
  ∧ (∀ q ∈ d1.appCats, q ∈ d2.appCats)

theorem dbLe_exec (db : Database) (f : Flush) : dbLe db (execApplicationBatch db f) :=
  ⟨fun _ h => mem_foldl_insertFact_of_mem _ h,
   fun _ h => mem_foldl_insertJunction_of_mem _ h,
   fun _ h => mem_foldl_insertJunction_of_mem _ h,
   fun _ h => mem_foldl_insertJunction_of_mem _ h,
   fun _ h => mem_foldl_insertJunction_of_mem _ h⟩

theorem dbLe_trans {d1 d2 d3 : Database} (h12 : dbLe d1 d2) (h23 : dbLe d2 d3) :
    dbLe d1 d3 :=
  ⟨fun x h => h23.1 x (h12.1 x h),
   fun q h => h23.2.1 q (h12.2.1 q h),
   fun q h => h23.2.2.1 q (h12.2.2.1 q h),
   fun q h => h23.2.2.2.1 q (h12.2.2.2.1 q h),
   fun q h => h23.2.2.2.2 q (h12.2.2.2.2 q h)⟩

theorem dbLe_foldl_exec (db : Database) (fs : List Flush) :
    dbLe db (fs.foldl execApplicationBatch db) := by
  induction fs generalizing db with
  | nil =>
    exact ⟨fun x h => h, fun q h => h, fun q h => h, fun q h => h, fun q h => h⟩
  | cons f fs ih =>
    rw [List.foldl_cons]
    exact dbLe_trans (dbLe_exec db f) (ih _)

theorem flushContentIn_mono {d1 d2 : Database} {f : Flush}
    (h : flushContentIn d1 f) (hle : dbLe d1 d2) : flushContentIn d2 f :=
  ⟨fun row hr => (h.1 row hr).elim (fun x hx => ⟨x, hle.1 x hx.1, hx.2⟩),
   fun q hq => hle.2.1 q (h.2.1 q hq),
   fun q hq => hle.2.2.1 q (h.2.2.1 q hq),
   fun q hq => hle.2.2.2.1 q (h.2.2.2.1 q hq),
   fun q hq => hle.2.2.2.2 q (h.2.2.2.2 q hq)⟩

theorem flushContentIn_exec_self (db : Database) (f : Flush) :
    flushContentIn (execApplicationBatch db f) f :=
  ⟨fun row hr => key_mem_foldl_insertFact row hr,
   fun q hq => self_mem_foldl_insertJunction q hq,
   fun q hq => self_mem_foldl_insertJunction q hq,
   fun q hq => self_mem_foldl_insertJunction q hq,
   fun q hq => self_mem_foldl_insertJunction q hq⟩

theorem exec_eq_self {db : Database} {f : Flush} (h : flushContentIn db f) :
    execApplicationBatch db f = db := by
  unfold execApplicationBatch
  rw [foldl_insertFact_eq_self h.1, foldl_insertJunction_eq_self h.2.1,
      foldl_insertJunction_eq_self h.2.2.1, foldl_insertJunction_eq_self h.2.2.2.1,
      foldl_insertJunction_eq_self h.2.2.2.2]

theorem flushes_content_fold (fs : List Flush) (db : Database) :
    ∀ f ∈ fs, flushContentIn (fs.foldl execApplicationBatch db) f := by
  induction fs generalizing db with
  | nil => intro f h; cases h
  | cons g gs ih =>
    intro f h
    rw [List.foldl_cons]
    rcases List.mem_cons.mp h with rfl | h
    · exact flushContentIn_mono (flushContentIn_exec_self db f) (dbLe_foldl_exec _ gs)
    · exact ih _ f h

theorem foldl_exec_eq_self {db : Database} {fs : List Flush}
    (h : ∀ f ∈ fs, flushContentIn db f) : fs.foldl execApplicationBatch db = db := by
  induction fs with
  | nil => rfl
  | cons f fs ih =>
    rw [List.foldl_cons, exec_eq_self (h f (by simp))]
    exact ih (fun g hg => h g (List.mem_cons_of_mem _ hg))

/-- The loop of `_insert_application_data` is the fold of
`_execute_application_batch` over the flush sequence. -/
theorem insertAppLoop_eq_flushes (maps : LookupMaps) (bs : Nat) :
    ∀ (rs : List JsonVal) (db : Database) (ab : List (JsonVal × JsonVal))
      (jb : JunctionBatch),
      insertAppLoop maps bs db rs ab jb
        = (appFlushes maps bs rs ab jb).foldl execApplicationBatch db := by
  intro rs
  induction rs with
  | nil =>
    intro db ab jb
    rw [insertAppLoop, appFlushes]
    by_cases h : ab.isEmpty <;> simp [h]
  | cons r rs ih =>
    intro db ab jb
    rw [insertAppLoop, appFlushes]
    cases hx : extractApp r with
    | none => exact ih db ab jb
    | some p =>
      dsimp only
      split
      · rw [List.foldl_cons]
        exact ih _ [] emptyJB
      · exact ih db _ _

theorem foldl_exec_lookups (db : Database) (fs : List Flush) :
    ((fs.foldl execApplicationBatch db).developers = db.developers)
    ∧ ((fs.foldl execApplicationBatch db).publishers = db.publishers)
    ∧ ((fs.foldl execApplicationBatch db).genres = db.genres)
    ∧ ((fs.foldl execApplicationBatch db).categories = db.categories) := by
  induction fs generalizing db with
  | nil => exact ⟨rfl, rfl, rfl, rfl⟩
  | cons f fs ih =>
    rw [List.foldl_cons]
    exact (ih (execApplicationBatch db f))

/-- Re-running `_import_games` against the same stream and the store it
produced changes nothing: phase 1 re-inserts only already-present lookup
values, phase 2 rebuilds the same maps, and every phase-3 conflict-skip
insert hits its uniqueness key. -/
theorem importGames_idem (db : Database) (records : List JsonVal) :
    importGames (importGames db records) records = importGames db records := by
  have hflush : ∀ (d : Database),
      insertApplicationData (fetchLookupMaps (populateLookupTables db
        (extractLookupData records))) d records
      = (appFlushes (fetchLookupMaps (populateLookupTables db (extractLookupData records)))
          BATCH_SIZE records [] emptyJB).foldl execApplicationBatch d := by
    intro d
    exact insertAppLoop_eq_flushes _ _ records d [] emptyJB
  have hd1 : importGames db records
      = (appFlushes (fetchLookupMaps (populateLookupTables db (extractLookupData records)))
          BATCH_SIZE records [] emptyJB).foldl execApplicationBatch
          (populateLookupTables db (extractLookupData records)) := by
    unfold importGames
    exact hflush _
  have hlook := foldl_exec_lookups (populateLookupTables db (extractLookupData records))
    (appFlushes (fetchLookupMaps (populateLookupTables db (extractLookupData records)))
      BATCH_SIZE records [] emptyJB)
  have hdev : (importGames db records).developers
      = populateTable db.developers (extractLookupData records).developers := by
    rw [hd1]; exact hlook.1
  have hpub : (importGames db records).publishers
      = populateTable db.publishers (extractLookupData records).publishers := by
    rw [hd1]; exact hlook.2.1
  have hgen : (importGames db records).genres
      = populateTable db.genres (extractLookupData records).genres := by
    rw [hd1]; exact hlook.2.2.1
  have hcat : (importGames db records).categories
      = populateTable db.categories (extractLookupData records).categories := by
    rw [hd1]; exact hlook.2.2.2
  have hpop : populateLookupTables (importGames db records) (extractLookupData records)
      = importGames db records := by
    unfold populateLookupTables
    rw [hdev, hpub, hgen, hcat, populateTable_idem, populateTable_idem,
        populateTable_idem, populateTable_idem, ← hdev, ← hpub, ← hgen, ← hcat]
  have hmaps : fetchLookupMaps (importGames db records)
      = fetchLookupMaps (populateLookupTables db (extractLookupData records)) := by
    unfold fetchLookupMaps
    rw [hdev, hpub, hgen, hcat]
    rfl
  show insertApplicationData
      (fetchLookupMaps (populateLookupTables (importGames db records)
        (extractLookupData records)))
      (populateLookupTables (importGames db records) (extractLookupData records))
      records
    = importGames db records
  rw [hpop, hmaps, hflush]
  apply foldl_exec_eq_self
  intro f hf
  rw [hd1]
  exact flushes_content_fold _ _ f hf

/-- C3: loading the same artifact twice into the same initially empty
store yields the same fact-table and junction-table row counts as
loading it once — the re-run changes nothing at all. -/
theorem C3_reload_no_duplicates (records : List JsonVal) :
    ((importGames (importGames emptyDb records) records).applications.length
      = (importGames emptyDb records).applications.length)
    ∧ ((importGames (importGames emptyDb records) records).appDevs.length
      = (importGames emptyDb records).appDevs.length)
    ∧ ((importGames (importGames emptyDb records) records).appPubs.length
      = (importGames emptyDb records).appPubs.length)
    ∧ ((importGames (importGames emptyDb records) records).appGenres.length
      = (importGames emptyDb records).appGenres.length)
    ∧ ((importGames (importGames emptyDb records) records).appCats.length
      = (importGames emptyDb records).appCats.length) := by
  rw [importGames_idem emptyDb records]
  exact ⟨rfl, rfl, rfl, rfl, rfl⟩

/-! ## C4: per-phase transactions, rollback on database error -/

theorem applyOps_append (xs ys : List (Database → Database)) (db : Database) :
    applyOps (xs ++ ys) db = applyOps ys (applyOps xs db) := by
  unfold applyOps
  rw [List.foldl_append]

theorem runOps_of_fault (fault : Nat → Bool) :
    ∀ (ops : List (Database → Database)) (k : Nat) (p : Database),
      hitsFault fault k ops.length = true → runOps fault ops k p = .error () := by
  intro ops
  induction ops with
  | nil => intro k p h; rw [List.length_nil, hitsFault] at h; cases h
  | cons op ops ih =>
    intro k p h
    rw [List.length_cons, hitsFault, Bool.or_eq_true] at h
    rw [runOps]
    cases hf : fault k with
    | true => rw [if_pos rfl]
    | false =>
      rw [if_neg (by simp)]
      rcases h with h | h
      · rw [hf] at h; cases h
      · exact ih (k + 1) (op p) h

theorem runOps_of_no_fault (fault : Nat → Bool) :
    ∀ (ops : List (Database → Database)) (k : Nat) (p : Database),
      hitsFault fault k ops.length = false →
      runOps fault ops k p = .ok (applyOps ops p, k + ops.length) := by
  intro ops
  induction ops with
  | nil => intro k p _; rw [runOps]; rfl
  | cons op ops ih =>
    intro k p h
    rw [List.length_cons, hitsFault, Bool.or_eq_false_iff] at h
    rw [runOps, if_neg (by simp [h.1]), ih (k + 1) (op p) h.2]
    have : k + 1 + ops.length = k + (ops.length + 1) := by omega
    rw [this]
    rfl

theorem populateTable_of_empty {t vs : List JsonVal}
    (h : (vs.filter truthy).isEmpty = true) : populateTable t vs = t := by
  unfold populateTable
  rw [List.isEmpty_iff.mp h]
  rfl

theorem applyOps_populateOps (ld : LookupData) (db : Database) :
    applyOps (populateOps ld) db = populateLookupTables db ld := by
  unfold populateOps populateLookupTables
  by_cases h1 : (ld.developers.filter truthy).isEmpty <;>
    by_cases h2 : (ld.publishers.filter truthy).isEmpty <;>
      by_cases h3 : (ld.genres.filter truthy).isEmpty <;>
        by_cases h4 : (ld.categories.filter truthy).isEmpty <;>
          simp [h1, h2, h3, h4, applyOps, populateTable_of_empty]

theorem applyOps_flushOps (f : Flush) (db : Database) :
    applyOps (flushOps f) db = execApplicationBatch db f := by
  unfold flushOps execApplicationBatch
  by_cases h1 : f.junction.dev.isEmpty <;>
    by_cases h2 : f.junction.pub.isEmpty <;>
      by_cases h3 : f.junction.genre.isEmpty <;>
        by_cases h4 : f.junction.cat.isEmpty <;>
          simp [h1, h2, h3, h4, applyOps, List.isEmpty_iff.mp]

theorem applyOps_insertOps (maps : LookupMaps) (bs : Nat) (records : List JsonVal)
    (db : Database) :
    applyOps (insertOps maps bs records) db = insertAppLoop maps bs db records [] emptyJB := by
  rw [insertAppLoop_eq_flushes]
  unfold insertOps
  generalize appFlushes maps bs records [] emptyJB = fs
  induction fs generalizing db with
  | nil => rfl
  | cons f fs ih =>
    rw [List.map_cons, List.flatten_cons, applyOps_append, applyOps_flushOps,
        List.foldl_cons, ih]

/-- C4: lookup population and fact+junction insertion run in their own
transactions; a database error raised by any statement of a phase rolls
the in-flight transaction back in full and exits with a non-zero code,
leaving the committed store exactly as it was when that phase began; a
fault-free run commits `importGames` and exits 0. -/
theorem C4_phase_rollback (db : Database) (records : List JsonVal) (fault : Nat → Bool) :
    (hitsFault fault 0 (populateOps (extractLookupData records)).length = true →
        runImportGames fault db records = (db, 1))
    ∧ (hitsFault fault 0 (populateOps (extractLookupData records)).length = false →
       hitsFault fault (populateOps (extractLookupData records)).length
         (insertOps (fetchLookupMaps (populateLookupTables db (extractLookupData records)))
           BATCH_SIZE records).length = true →
        runImportGames fault db records
          = (populateLookupTables db (extractLookupData records), 1))
    ∧ (hitsFault fault 0 (populateOps (extractLookupData records)).length = false →
       hitsFault fault (populateOps (extractLookupData records)).length
         (insertOps (fetchLookupMaps (populateLookupTables db (extractLookupData records)))
           BATCH_SIZE records).length = false →
        runImportGames fault db records = (importGames db records, 0)) := by
  refine ⟨fun h1 => ?_, fun h1 h2 => ?_, fun h1 h2 => ?_⟩
  · unfold runImportGames
    rw [runOps_of_fault fault _ _ _ h1]
  · unfold runImportGames
    rw [runOps_of_no_fault fault _ _ _ h1]
    dsimp only
    rw [applyOps_populateOps]
    rw [runOps_of_fault fault _ _ _ (by rw [Nat.zero_add]; exact h2)]
  · unfold runImportGames
    rw [runOps_of_no_fault fault _ _ _ h1]
    dsimp only
    rw [applyOps_populateOps]
    rw [runOps_of_no_fault fault _ _ _ (by rw [Nat.zero_add]; exact h2)]
    dsimp only
    rw [applyOps_insertOps]
    rfl

theorem C4_witness :
    runImportGames (fun k => decide (k = 0)) emptyDb [mkNode 10 "A"]
      = (populateLookupTables emptyDb (extractLookupData [mkNode 10 "A"]), 1) :=
  (C4_phase_rollback emptyDb [mkNode 10 "A"] (fun k => decide (k = 0))).2.1
    (by decide) (by decide)

/-! ## C8: the reviews mode dies on an unimported name -/

/-- C8: any reviews-mode invocation raises `NameError` at the top of
`_insert_review_data` (line 293: `Counter` is used but never imported),
before a single record is examined; the claimed skip-and-continue logic
never runs. -/
theorem C8_reviews_name_error :
    importReviews emptyDb
      [.obj [("appid", .num 999), ("reviews", .obj [("success", .num 1)])]]
      = Except.error "NameError: name Counter is not defined" := rfl
